import Mathlib

/-!
Verification of the corfs cache-on-read filesystem layer.

The Go source (corfs.go, corfile.go) is shallowly embedded: each Go
function becomes a Lean function over explicit parameters standing for
the results of the underlying store calls, and the best-effort calls made
to the cache tier are returned as explicit data (flags / traces) so that
theorems can talk about which cache operations were attempted.
-/

namespace Corfs

/-- Errors are abstract values; Go `error` interface values are modelled as
`Option Err` (`none` = nil). -/
abbrev Err := Nat

/-- os.O_RDONLY on Linux. -/
def O_RDONLY : Nat := 0

/-- os.O_WRONLY on Linux. -/
def O_WRONLY : Nat := 1

/-- os.O_RDWR on Linux. -/
def O_RDWR : Nat := 2

/-- os.O_CREATE on Linux. -/
def O_CREATE : Nat := 64

/-- os.O_TRUNC on Linux. -/
def O_TRUNC : Nat := 512

/-- The write-intent test from corfs.go line 37:
`flag&(os.O_CREATE|os.O_WRONLY|os.O_RDWR) != 0`. -/
def writeIntent (flag : Nat) : Bool :=
  flag &&& (O_CREATE ||| O_WRONLY ||| O_RDWR) != 0

/-- What `FileSystem.OpenFile` hands back to the caller: either a dual-handle
`File` wrapping the primary handle and an optional cache handle (corfs.go
lines 43-48 and 61-66), or the raw cache handle returned directly on the
read-only fallback path (corfs.go line 58). -/
inductive OpenedFile (H : Type) where
  | dual (primary : H) (cache : Option H) (name : String)
  | rawCache (h : H)
deriving DecidableEq, Repr

/-- The observable outcome of one `FileSystem.OpenFile` call: the returned
file (if any), the returned error (if any), and whether the cache store's
`OpenFile` was invoked at all. -/
structure OpenOutcome (H : Type) where
  result : Option (OpenedFile H)
  err : Option Err
  cacheAttempted : Bool
deriving DecidableEq, Repr

/-- A store's `OpenFile` method: name, flag, perm to handle-or-error.
Go's `(absfs.File, error)` return with the nil-on-error convention is
modelled as `Except Err H`. -/
abbrev OpenFn (H : Type) := String → Nat → Nat → Except Err H

/-- Shallow embedding of `FileSystem.OpenFile` (corfs.go lines 32-67).
The primary store is opened first, then:
write intent + primary failure returns the primary error with no cache
attempt; write intent + primary success opens the cache with the same
name, flag and perm, tolerating failure, and wraps both in a dual file;
read-only + primary failure falls back to the cache, returning the raw
cache handle on success and the original primary error otherwise;
read-only + primary success wraps the primary handle alone. -/
def openFile {H : Type} (primary cache : OpenFn H)
    (name : String) (flag : Nat) (perm : Nat) : OpenOutcome H :=
  match primary name flag perm with
  | .error e =>
    if writeIntent flag then
      ⟨none, some e, false⟩
    else
      match cache name flag perm with
      | .error _ => ⟨none, some e, true⟩
      | .ok cf => ⟨some (.rawCache cf), none, true⟩
  | .ok pf =>
    if writeIntent flag then
      match cache name flag perm with
      | .error _ => ⟨some (.dual pf none name), none, true⟩
      | .ok cf => ⟨some (.dual pf (some cf) name), none, true⟩
    else
      ⟨some (.dual pf none name), none, false⟩

/-- Shallow embedding of `FileSystem.Stat` (corfs.go lines 91-98): return
primary metadata; on primary failure return the cache's `Stat` result,
success or failure, directly. -/
def statFS {I : Type} (primStat cacheStat : Except Err I) : Except Err I :=
  match primStat with
  | .error _ => cacheStat
  | .ok info => .ok info

/-- Shallow embedding of `FileSystem.ReadDir` (corfs.go lines 155-162):
return the primary listing; on primary failure return the cache's
`ReadDir` result, success or failure, directly. -/
def readDirFS {E : Type} (primList cacheList : Except Err (List E)) :
    Except Err (List E) :=
  match primList with
  | .error _ => cacheList
  | .ok entries => .ok entries

/-- Shallow embedding of the value/error returned by `FileSystem.ReadFile`
(corfs.go lines 165-183): return the primary content; on primary failure
return the cache's `ReadFile` result, success or failure, directly.  The
best-effort cache mirror performed on primary success (lines 173-180)
writes to the cache store but does not change the returned pair. -/
def readFileFS (primRead cacheRead : Except Err (List Nat)) :
    Except Err (List Nat) :=
  match primRead with
  | .error _ => cacheRead
  | .ok data => .ok data

/-- The dual-handle `File` of corfile.go lines 10-16: a primary handle, an
optional cache handle, the file name, and the `cached` flag.  The
back-reference to the owning `FileSystem` is represented by passing the
cache store's `OpenFile` function to `fileRead` explicitly. -/
structure DualFile (H : Type) where
  primary : H
  cache : Option H
  name : String
  cached : Bool
deriving DecidableEq, Repr

/-- A best-effort call made to the cache tier by a `File` method: either an
`OpenFile` on the cache store or a `Write` on an open cache handle. -/
inductive CacheOp (H : Type) where
  | openAttempt (name : String) (flag : Nat) (perm : Nat)
  | writeBytes (h : H) (bytes : List Nat)
deriving DecidableEq, Repr

/-- Shallow embedding of `File.Read` (corfile.go lines 24-41).  The primary
read's outcome is given by `b` (the buffer contents after the primary read),
`n` (bytes read) and `err`.  When `n > 0`, no cache handle is open, and the
`cached` flag is unset, the cache store is asked to open the name with
`O_CREATE|O_WRONLY` and perm 0644; on success the handle is installed.  When
`n > 0` and a cache handle is then present, `b[:n]` is written to it.  The
primary result is returned verbatim, together with the updated file state
and the trace of cache-tier calls made. -/
def fileRead {H : Type} (cacheStore : OpenFn H) (f : DualFile H)
    (b : List Nat) (n : Nat) (err : Option Err) :
    (Nat × Option Err) × DualFile H × List (CacheOp H) :=
  let step :=
    if 0 < n ∧ f.cache.isNone ∧ ¬ f.cached then
      match cacheStore f.name (O_CREATE ||| O_WRONLY) 0o644 with
      | .ok h =>
          ({ f with cache := some h },
           [CacheOp.openAttempt f.name (O_CREATE ||| O_WRONLY) 0o644])
      | .error _ =>
          (f, [CacheOp.openAttempt f.name (O_CREATE ||| O_WRONLY) 0o644])
    else (f, [])
  let f1 := step.1
  let ops2 :=
    if 0 < n then
      match f1.cache with
      | some h => [CacheOp.writeBytes h (b.take n)]
      | none => []
    else []
  ((n, err), f1, step.2 ++ ops2)

/-- Shallow embedding of `File.Write` (corfile.go lines 49-55): the primary
write's result `(n, err)` is returned unchanged; when `n > 0` and a cache
handle is present, `b[:n]` is written to it (the second component names the
handle and the mirrored bytes, `none` when no mirror write happens). -/
def fileWrite {H : Type} (f : DualFile H) (b : List Nat)
    (n : Nat) (err : Option Err) :
    (Nat × Option Err) × Option (H × List Nat) :=
  ((n, err),
    if 0 < n then f.cache.map (fun h => (h, b.take n)) else none)

/-- Shallow embedding of `File.WriteAt` (corfile.go lines 58-64): when
`n > 0` and a cache handle is present, `b[:n]` is mirrored at the same
offset `off`. -/
def fileWriteAt {H : Type} (f : DualFile H) (b : List Nat) (off : Int)
    (n : Nat) (err : Option Err) :
    (Nat × Option Err) × Option (H × List Nat × Int) :=
  ((n, err),
    if 0 < n then f.cache.map (fun h => (h, b.take n, off)) else none)

/-- Shallow embedding of `File.WriteString` (corfile.go lines 67-73): when
`n > 0` and a cache handle is present, the whole string `s` is mirrored
(the source calls `f.cache.WriteString(s)`, not `s[:n]`). -/
def fileWriteString {H : Type} (f : DualFile H) (s : List Nat)
    (n : Nat) (err : Option Err) :
    (Nat × Option Err) × Option (H × List Nat) :=
  ((n, err),
    if 0 < n then f.cache.map (fun h => (h, s)) else none)

/-- Shallow embedding of `File.Seek` (corfile.go lines 88-94): the primary
seek result is returned; whenever a cache handle is present it is also
seeked with the same offset and whence, unconditionally on the primary
error.  The second component records the cache call and its arguments. -/
def fileSeek {H : Type} (f : DualFile H) (ret : Int) (err : Option Err)
    (offset : Int) (whence : Nat) :
    (Int × Option Err) × Option (H × Int × Nat) :=
  ((ret, err), f.cache.map (fun h => (h, offset, whence)))

/-- Shallow embedding of `File.Sync` (corfile.go lines 102-108): the primary
sync error is returned; whenever a cache handle is present it is synced
too, unconditionally on the primary error. -/
def fileSync {H : Type} (f : DualFile H) (err : Option Err) :
    Option Err × Option H :=
  (err, f.cache)

/-- Shallow embedding of `File.Truncate` (corfile.go lines 111-117): the
primary truncate error is returned; whenever a cache handle is present it
is truncated to the same size, unconditionally on the primary error. -/
def fileTruncate {H : Type} (f : DualFile H) (size : Int) (err : Option Err) :
    Option Err × Option (H × Int) :=
  (err, f.cache.map (fun h => (h, size)))

/-- The slice of `os.FileInfo` that `File.Readdir` inspects: the entry
name (plus a directory bit so entries are not just names). -/
structure FInfo where
  name : String
  isDir : Bool
deriving DecidableEq, Repr

/-- Shallow embedding of `File.Readdir` (corfile.go lines 120-135): the
primary listing is returned as-is on error; on success, entries named "."
or ".." are filtered out. -/
def fileReaddir (primRes : List FInfo × Option Err) :
    List FInfo × Option Err :=
  match primRes with
  | (entries, some e) => (entries, some e)
  | (entries, none) =>
      (entries.filter (fun en => en.name != "." && en.name != ".."), none)

/-- Shallow embedding of `File.Readdirnames` (corfile.go lines 138-153):
the primary name listing is returned as-is on error; on success, names
"." and ".." are filtered out. -/
def fileReaddirnames (primRes : List String × Option Err) :
    List String × Option Err :=
  match primRes with
  | (names, some e) => (names, some e)
  | (names, none) =>
      (names.filter (fun nm => nm != "." && nm != ".."), none)

mutual
/-- The directory structure reachable from a path in the underlying store:
a plain file, or a directory whose `Readdirnames` call lists the given
entry names (in the given order, possibly including "." and ".."). -/
inductive FsTree where
  | file : FsTree
  | dir (entries : Entries) : FsTree
deriving DecidableEq, Repr
/-- A directory's listed entries, in listing order. -/
inductive Entries where
  | nil : Entries
  | cons (name : String) (child : FsTree) (rest : Entries) : Entries
deriving DecidableEq, Repr
end

/-- `string(os.PathSeparator)` on Linux. -/
def pathSep : String := "/"

/-- Error injection for the store calls made by `removeAll`: for each path,
the error (if any) returned by the stat-probing `OpenFile`, by `Stat`, by
the `Close` of the stat-probing handle, by the second `OpenFile` used for
listing, by `Readdirnames`, and by `Remove`. -/
structure RmEnv where
  openErr : String → Option Err
  statErr : String → Option Err
  closeErr : String → Option Err
  reopenErr : String → Option Err
  namesErr : String → Option Err
  removeErr : String → Option Err

/-- The environment in which every store call made by `removeAll`
succeeds. -/
def happyEnv : RmEnv :=
  ⟨fun _ => none, fun _ => none, fun _ => none,
   fun _ => none, fun _ => none, fun _ => none⟩

mutual
/-- Shallow embedding of the helper `removeAll` (corfs.go lines 314-362).
The store's behaviour at `path` is described by the tree `t` and the error
oracle `env`.  The result is the returned error (`none` = nil) paired with
the trace of successfully removed paths, in order.  Control flow follows
the source: the stat-probing open, `Stat`, and the capture of that
handle's close error; a non-directory returns `filer.Remove(path)`
directly (discarding the close error); a directory is re-opened and
listed, each listed name other than "." and ".." is removed recursively
(aborting on the first failure), the directory itself is removed, and only
then is the captured close error returned. -/
def removeAll (env : RmEnv) (t : FsTree) (path : String) :
    Option Err × List String :=
  match env.openErr path with
  | some e => (some e, [])
  | none =>
    let closeE := env.closeErr path
    match env.statErr path with
    | some e => (some e, [])
    | none =>
      match t with
      | .file =>
        match env.removeErr path with
        | some e => (some e, [])
        | none => (none, [path])
      | .dir entries =>
        match env.reopenErr path with
        | some e => (some e, [])
        | none =>
          match env.namesErr path with
          | some e => (some e, [])
          | none =>
            match removeChildren env entries path with
            | (some e, tr) => (some e, tr)
            | (none, tr) =>
              match env.removeErr path with
              | some e => (some e, tr)
              | none => (closeE, tr ++ [path])
/-- The loop of corfs.go lines 346-354 over the listed entry names. -/
def removeChildren (env : RmEnv) (es : Entries) (path : String) :
    Option Err × List String :=
  match es with
  | .nil => (none, [])
  | .cons name child rest =>
    if name = "." ∨ name = ".." then
      removeChildren env rest path
    else
      match removeAll env child (path ++ pathSep ++ name) with
      | (some e, tr) => (some e, tr)
      | (none, tr) =>
        match removeChildren env rest path with
        | (r, tr2) => (r, tr ++ tr2)
end

mutual
/-- The removal order the spec describes for `RemoveAllRecursive`: for each
listed entry name other than "." and "..", in listed order, recursively
remove the child at `path/name`, then remove `path` itself last
(children-before-parent, depth-first). -/
def specRemoveOrder (t : FsTree) (path : String) : List String :=
  match t with
  | .file => [path]
  | .dir entries => specRemoveOrderEntries entries path ++ [path]
/-- The spec's removal order over a directory's listed entries. -/
def specRemoveOrderEntries (es : Entries) (path : String) : List String :=
  match es with
  | .nil => []
  | .cons name child rest =>
    if name = "." ∨ name = ".." then
      specRemoveOrderEntries rest path
    else
      specRemoveOrder child (path ++ pathSep ++ name) ++
        specRemoveOrderEntries rest path
end

/-- `isInit a b` holds when the list `a` is an initial segment of `b`. -/
def isInit {α : Type} (a b : List α) : Prop := ∃ t, a ++ t = b

/-- The effect of one mirrored sequential write on the contents of the
cache file: a fresh write-only cache handle writes at its current end, so
the mirrored bytes are appended; `none` (no mirror call) leaves the
contents unchanged. -/
def applyMirror {H : Type} (content : List Nat) (m : Option (H × List Nat)) :
    List Nat :=
  match m with
  | none => content
  | some (_, bs) => content ++ bs

/-- An environment for `removeAll` in which every store call succeeds but
every `Close` of the stat-probing handle reports error 7. -/
def envCloseFails : RmEnv :=
  { happyEnv with closeErr := fun _ => some 7 }

/-- C1 counterexample: `FileSystem.Stat` is one of the operations the claim
covers, yet when the primary `Stat` fails with error 1 and the cache `Stat`
fails with error 2, the surfaced error is the cache's error 2, not the
primary's error 1. -/
theorem C1_counterexample :
    statFS (I := Nat) (Except.error 1) (Except.error 2) = Except.error 2 ∧
      (Except.error 2 : Except Err Nat) ≠ Except.error 1 := by
  refine ⟨rfl, ?_⟩
  simp

/-- C1 (amended): when both the primary attempt and the fallback cache
attempt fail, read-only `OpenFile` surfaces the primary error, while
`Stat`, `ReadDir` and `ReadFile` return the cache's result directly, so
they surface the cache's error. -/
theorem C1_fallback_error_amended :
    (∀ (H : Type) (primary cache : OpenFn H) (name : String)
       (flag perm : Nat) (e ce : Err),
       writeIntent flag = false →
       primary name flag perm = Except.error e →
       cache name flag perm = Except.error ce →
       (openFile primary cache name flag perm).err = some e) ∧
    (∀ (I : Type) (e ce : Err),
       statFS (I := I) (Except.error e) (Except.error ce) = Except.error ce) ∧
    (∀ (E : Type) (e ce : Err),
       readDirFS (E := E) (Except.error e) (Except.error ce) =
         Except.error ce) ∧
    (∀ (e ce : Err),
       readFileFS (Except.error e) (Except.error ce) = Except.error ce) := by
  refine ⟨?_, ?_, ?_, ?_⟩
  · intro H primary cache name flag perm e ce hw hp hc
    simp [openFile, hp, hc, hw]
  · intro I e ce; rfl
  · intro E e ce; rfl
  · intro e ce; rfl

/-- Witness for the amended C1 at a concrete input: a read-only open with
primary error 1 and cache error 2 surfaces error 1. -/
theorem C1_fallback_error_amended_witness :
    (openFile (H := Nat) (fun _ _ _ => Except.error 1)
      (fun _ _ _ => Except.error 2) "/f" O_RDONLY 0).err = some 1 :=
  C1_fallback_error_amended.1 Nat (fun _ _ _ => Except.error 1)
    (fun _ _ _ => Except.error 2) "/f" O_RDONLY 0 1 2 (by decide) rfl rfl

/-- C2: for a write-intent `OpenFile`, a primary failure is returned at
once with no cache attempt; on primary success the cache is opened with
the same name, flag and perm, a cache failure leaves the cache handle
absent, and a dual-handle file wrapping both is returned. -/
theorem C2_write_intent_open {H : Type} (primary cache : OpenFn H)
    (name : String) (flag perm : Nat) (hw : writeIntent flag = true) :
    (∀ e, primary name flag perm = Except.error e →
       openFile primary cache name flag perm = ⟨none, some e, false⟩) ∧
    (∀ pf cf, primary name flag perm = Except.ok pf →
       cache name flag perm = Except.ok cf →
       openFile primary cache name flag perm =
         ⟨some (.dual pf (some cf) name), none, true⟩) ∧
    (∀ pf ce, primary name flag perm = Except.ok pf →
       cache name flag perm = Except.error ce →
       openFile primary cache name flag perm =
         ⟨some (.dual pf none name), none, true⟩) := by
  refine ⟨?_, ?_, ?_⟩
  · intro e hp; simp [openFile, hp, hw]
  · intro pf cf hp hc; simp [openFile, hp, hc, hw]
  · intro pf ce hp hc; simp [openFile, hp, hc, hw]

/-- Witness for C2 at a concrete input: primary failure on a create-flag
open is returned with no cache attempt. -/
theorem C2_write_intent_open_witness :
    openFile (H := Nat) (fun _ _ _ => Except.error 5)
      (fun _ _ _ => Except.ok 1) "/f" (O_CREATE ||| O_WRONLY) 0o644 =
      ⟨none, some 5, false⟩ :=
  (C2_write_intent_open (fun _ _ _ => Except.error 5)
    (fun _ _ _ => Except.ok 1) "/f" (O_CREATE ||| O_WRONLY) 0o644
    (by decide)).1 5 rfl

/-- C3: for a read-only `OpenFile` where the primary open fails, a
successful cache open returns the raw cache handle directly, and a failed
cache open returns the original primary error. -/
theorem C3_readonly_fallback {H : Type} (primary cache : OpenFn H)
    (name : String) (flag perm : Nat) (hw : writeIntent flag = false)
    (e : Err) (hp : primary name flag perm = Except.error e) :
    (∀ cf, cache name flag perm = Except.ok cf →
       openFile primary cache name flag perm =
         ⟨some (.rawCache cf), none, true⟩) ∧
    (∀ ce, cache name flag perm = Except.error ce →
       openFile primary cache name flag perm = ⟨none, some e, true⟩) := by
  constructor
  · intro cf hc; simp [openFile, hp, hc, hw]
  · intro ce hc; simp [openFile, hp, hc, hw]

/-- Witness for C3 at a concrete input: primary error 5, cache holds the
file, and the raw cache handle is returned unwrapped. -/
theorem C3_readonly_fallback_witness :
    openFile (H := Nat) (fun _ _ _ => Except.error 5)
      (fun _ _ _ => Except.ok 9) "/f" O_RDONLY 0 =
      ⟨some (.rawCache 9), none, true⟩ :=
  (C3_readonly_fallback (fun _ _ _ => Except.error 5)
    (fun _ _ _ => Except.ok 9) "/f" O_RDONLY 0 (by decide) 5 rfl).1 9 rfl

/-- C4: `File.Read` returns the primary read's count and error verbatim;
when bytes were read and no cache handle is present, a write-intent cache
open (`O_CREATE|O_WRONLY`) is attempted at the same name, and whenever a
cache handle is then present the bytes just read are written to it; a
second Read after a successful lazy open reuses the already-open handle
without re-attempting the open. -/
theorem C4_read_lazy_cache :
    (∀ (H : Type) (cs : OpenFn H) (f : DualFile H) (b : List Nat)
       (n : Nat) (err : Option Err),
       (fileRead cs f b n err).1 = (n, err)) ∧
    (∀ (H : Type) (cs : OpenFn H) (f : DualFile H) (b : List Nat)
       (n : Nat) (err : Option Err) (h : H),
       0 < n → f.cache = none → f.cached = false →
       cs f.name (O_CREATE ||| O_WRONLY) 0o644 = Except.ok h →
       (fileRead cs f b n err).2.2 =
         [CacheOp.openAttempt f.name (O_CREATE ||| O_WRONLY) 0o644,
          CacheOp.writeBytes h (b.take n)] ∧
       (fileRead cs f b n err).2.1 = { f with cache := some h }) ∧
    (∀ (H : Type) (cs : OpenFn H) (f : DualFile H) (b : List Nat)
       (n : Nat) (err : Option Err) (e : Err),
       0 < n → f.cache = none → f.cached = false →
       cs f.name (O_CREATE ||| O_WRONLY) 0o644 = Except.error e →
       (fileRead cs f b n err).2.2 =
         [CacheOp.openAttempt f.name (O_CREATE ||| O_WRONLY) 0o644]) ∧
    (∀ (H : Type) (cs : OpenFn H) (f : DualFile H) (b : List Nat)
       (n : Nat) (err : Option Err) (h : H),
       0 < n → f.cache = some h →
       (fileRead cs f b n err).2.2 = [CacheOp.writeBytes h (b.take n)] ∧
       (fileRead cs f b n err).2.1 = f) ∧
    (∀ (H : Type) (cs : OpenFn H) (f : DualFile H) (b b2 : List Nat)
       (n n2 : Nat) (err err2 : Option Err) (h : H),
       0 < n → 0 < n2 → f.cache = none → f.cached = false →
       cs f.name (O_CREATE ||| O_WRONLY) 0o644 = Except.ok h →
       (fileRead cs ((fileRead cs f b n err).2.1) b2 n2 err2).2.2 =
         [CacheOp.writeBytes h (b2.take n2)]) := by
  refine ⟨?_, ?_, ?_, ?_, ?_⟩
  · intro H cs f b n err; rfl
  · intro H cs f b n err h h1 h2 h3 h4
    constructor <;> simp [fileRead, h1, h2, h3, h4]
  · intro H cs f b n err e h1 h2 h3 h4
    simp [fileRead, h1, h2, h3, h4]
  · intro H cs f b n err h h1 h2
    constructor <;> simp [fileRead, h1, h2]
  · intro H cs f b b2 n n2 err err2 h h1 h1b h2 h3 h4
    simp [fileRead, h1, h1b, h2, h3, h4]

/-- Witness for C4 at a concrete input: a first read of 2 bytes with no
cache handle opens the cache and mirrors the two bytes. -/
theorem C4_read_lazy_cache_witness :
    (fileRead (H := Nat) (fun _ _ _ => Except.ok 7)
      ⟨0, none, "/f", false⟩ [1, 2, 3] 2 none).2.2 =
      [CacheOp.openAttempt "/f" (O_CREATE ||| O_WRONLY) 0o644,
       CacheOp.writeBytes 7 [1, 2]] := by
  have h := (C4_read_lazy_cache.2.1) Nat (fun _ _ _ => Except.ok 7)
    ⟨0, none, "/f", false⟩ [1, 2, 3] 2 none 7 (by decide) rfl rfl rfl
  simpa using h.1

/-- C5 counterexample: with a cache store whose opens always fail, a first
Read leaves the file state unchanged, and a second Read on the same handle
re-attempts the cache open — the flag does not prevent it. -/
theorem C5_counterexample :
    (fileRead (fun _ _ _ => (Except.error 3 : Except Err Nat))
      ((fileRead (fun _ _ _ => (Except.error 3 : Except Err Nat))
        ⟨0, none, "/f", false⟩ [1] 1 none).2.1)
      [2] 1 none).2.2 =
      [CacheOp.openAttempt "/f" (O_CREATE ||| O_WRONLY) 0o644] := by
  rfl

/-- C5 (amended): `File.Read` never sets the `cached` flag; a Read whose
lazy cache open fails leaves the file state entirely unchanged, and every
Read that reads bytes while the cache handle is absent and the flag unset
attempts the cache open — so after a failed lazy open, every subsequent
such Read re-attempts it. -/
theorem C5_lazy_retry_amended :
    (∀ (H : Type) (cs : OpenFn H) (f : DualFile H) (b : List Nat)
       (n : Nat) (err : Option Err),
       ((fileRead cs f b n err).2.1).cached = f.cached) ∧
    (∀ (H : Type) (cs : OpenFn H) (f : DualFile H) (b : List Nat)
       (n : Nat) (err : Option Err) (e : Err),
       f.cache = none → f.cached = false →
       cs f.name (O_CREATE ||| O_WRONLY) 0o644 = Except.error e →
       (fileRead cs f b n err).2.1 = f) ∧
    (∀ (H : Type) (cs : OpenFn H) (f : DualFile H) (b : List Nat)
       (n : Nat) (err : Option Err),
       0 < n → f.cache = none → f.cached = false →
       CacheOp.openAttempt f.name (O_CREATE ||| O_WRONLY) 0o644 ∈
         (fileRead cs f b n err).2.2) := by
  refine ⟨?_, ?_, ?_⟩
  · intro H cs f b n err
    by_cases h1 : 0 < n ∧ f.cache.isNone ∧ ¬ f.cached
    · rcases h : cs f.name (O_CREATE ||| O_WRONLY) 0o644 with e | hh <;>
        simp [fileRead, h1, h]
    · simp only [fileRead]
      rw [if_neg h1]
  · intro H cs f b n err e h2 h3 h4
    by_cases h1 : 0 < n
    · simp [fileRead, h1, h2, h3, h4]
    · simp [fileRead, h1]
  · intro H cs f b n err h1 h2 h3
    rcases h : cs f.name (O_CREATE ||| O_WRONLY) 0o644 with e | hh <;>
      simp [fileRead, h1, h2, h3, h]

/-- Witness for the amended C5 at a concrete input: a failed lazy open
leaves the file unchanged, seen on a concrete one-byte read. -/
theorem C5_lazy_retry_amended_witness :
    (fileRead (fun _ _ _ => (Except.error 3 : Except Err Nat))
      ⟨0, none, "/f", false⟩ [1] 1 none).2.1 =
      (⟨0, none, "/f", false⟩ : DualFile Nat) :=
  C5_lazy_retry_amended.2.1 Nat (fun _ _ _ => Except.error 3)
    ⟨0, none, "/f", false⟩ [1] 1 none 3 rfl rfl rfl

/-- C6 counterexample: `File.WriteString` with a live cache handle mirrors
the entire string even when the primary accepted only one of its two
bytes, so the mirrored bytes are not the bytes the primary accepted. -/
theorem C6_counterexample :
    (fileWriteString (H := Nat) ⟨0, some 7, "/f", false⟩ [1, 2] 1 none).2 =
      some (7, [1, 2]) ∧ ([1, 2] : List Nat) ≠ [1] := by
  refine ⟨rfl, ?_⟩
  simp

/-- C6 (amended): with a live cache handle, `Write` and `WriteAt` mirror
exactly the bytes the primary accepted (`b[:n]`, at the same offset for
`WriteAt`), while `WriteString` mirrors the whole string whenever the
primary accepted at least one byte; when the primary accepts all of `b`, a
fresh cache file receiving the mirrored sequential write holds exactly
`b`. -/
theorem C6_mirror_amended :
    (∀ (H : Type) (pf h : H) (name : String) (c : Bool) (b : List Nat)
       (n : Nat) (err : Option Err),
       0 < n →
       (fileWrite ⟨pf, some h, name, c⟩ b n err).2 = some (h, b.take n)) ∧
    (∀ (H : Type) (pf h : H) (name : String) (c : Bool) (b : List Nat)
       (off : Int) (n : Nat) (err : Option Err),
       0 < n →
       (fileWriteAt ⟨pf, some h, name, c⟩ b off n err).2 =
         some (h, b.take n, off)) ∧
    (∀ (H : Type) (pf h : H) (name : String) (c : Bool) (s : List Nat)
       (n : Nat) (err : Option Err),
       0 < n →
       (fileWriteString ⟨pf, some h, name, c⟩ s n err).2 = some (h, s)) ∧
    (∀ (H : Type) (pf h : H) (name : String) (c : Bool) (b : List Nat)
       (err : Option Err),
       applyMirror []
         ((fileWrite ⟨pf, some h, name, c⟩ b b.length err).2) = b) := by
  refine ⟨?_, ?_, ?_, ?_⟩
  · intro H pf h name c b n err h1; simp [fileWrite, h1]
  · intro H pf h name c b off n err h1; simp [fileWriteAt, h1]
  · intro H pf h name c s n err h1; simp [fileWriteString, h1]
  · intro H pf h name c b err
    rcases b with _ | ⟨x, xs⟩ <;>
      simp [fileWrite, applyMirror]

/-- Witness for the amended C6 at a concrete input: a write of `[1,2,3]`
with the primary accepting 2 bytes mirrors `[1,2]` to cache handle 7. -/
theorem C6_mirror_amended_witness :
    (fileWrite (H := Nat) ⟨0, some 7, "/f", false⟩ [1, 2, 3] 2 none).2 =
      some (7, [1, 2]) := by
  have h := C6_mirror_amended.1 Nat 0 7 "/f" false [1, 2, 3] 2 none
    (by decide)
  simpa using h

/-- C9: listings returned without error by `File.Readdir` and
`File.Readdirnames` contain no entry named "." or "..", even when the
primary store's listing does. -/
theorem C9_no_dot_entries :
    (∀ (entries : List FInfo) (en : FInfo),
       en ∈ (fileReaddir (entries, none)).1 →
       en.name ≠ "." ∧ en.name ≠ "..") ∧
    (∀ (names : List String) (nm : String),
       nm ∈ (fileReaddirnames (names, none)).1 →
       nm ≠ "." ∧ nm ≠ "..") := by
  constructor
  · intro entries en hm
    simp only [fileReaddir, List.mem_filter] at hm
    have h2 := hm.2
    constructor <;> intro hq <;> simp [hq] at h2
  · intro names nm hm
    simp only [fileReaddirnames, List.mem_filter] at hm
    have h2 := hm.2
    constructor <;> intro hq <;> simp [hq] at h2

/-- Witness for C9 at a concrete input: the entry "x" survives a listing
containing "." and "..", and is not itself "." or "..". -/
theorem C9_no_dot_entries_witness :
    ("x" : String) ≠ "." ∧ ("x" : String) ≠ ".." :=
  C9_no_dot_entries.2 [".", "..", "x"] "x" (by decide)

/-- C10: `Seek`, `Sync` and `Truncate` on a dual-handle file with a cache
handle present invoke the corresponding cache-handle operation with the
same arguments even when the primary operation reports an error. -/
theorem C10_mirror_not_conditioned_on_success :
    (∀ (H : Type) (pf h : H) (name : String) (c : Bool) (ret : Int)
       (e : Err) (offset : Int) (whence : Nat),
       (fileSeek ⟨pf, some h, name, c⟩ ret (some e) offset whence).2 =
         some (h, offset, whence)) ∧
    (∀ (H : Type) (pf h : H) (name : String) (c : Bool) (e : Err),
       (fileSync ⟨pf, some h, name, c⟩ (some e)).2 = some h) ∧
    (∀ (H : Type) (pf h : H) (name : String) (c : Bool) (size : Int)
       (e : Err),
       (fileTruncate ⟨pf, some h, name, c⟩ size (some e)).2 =
         some (h, size)) := by
  refine ⟨?_, ?_, ?_⟩
  · intro H pf h name c ret e offset whence; rfl
  · intro H pf h name c e; rfl
  · intro H pf h name c size e; rfl

mutual
/-- In the all-success environment, `removeAll` succeeds and its removal
trace is exactly the spec's depth-first, children-before-parent order. -/
theorem removeAll_happy (t : FsTree) (path : String) :
    removeAll happyEnv t path = (none, specRemoveOrder t path) := by
  cases t with
  | file => simp [removeAll, happyEnv, specRemoveOrder]
  | dir entries =>
    have ih := removeChildren_happy entries path
    simp only [happyEnv] at ih
    simp [removeAll, happyEnv, specRemoveOrder, ih]
/-- In the all-success environment, the child loop removes exactly the
spec's order over the listed entries. -/
theorem removeChildren_happy (es : Entries) (path : String) :
    removeChildren happyEnv es path =
      (none, specRemoveOrderEntries es path) := by
  cases es with
  | nil => simp [removeChildren, specRemoveOrderEntries]
  | cons name child rest =>
    have ih1 := removeAll_happy child (path ++ pathSep ++ name)
    have ih2 := removeChildren_happy rest path
    by_cases h : name = "." ∨ name = ".."
    · simp [removeChildren, specRemoveOrderEntries, h, ih2]
    · simp [removeChildren, specRemoveOrderEntries, h, ih1, ih2]
end

mutual
/-- Under any error environment, the paths `removeAll` actually removes
form an initial segment of the spec's depth-first order, and when it
returns no error the segment is the whole order. -/
theorem removeAll_trace (env : RmEnv) (t : FsTree) (path : String) :
    (∃ u, (removeAll env t path).2 ++ u = specRemoveOrder t path) ∧
    ((removeAll env t path).1 = none →
      (removeAll env t path).2 = specRemoveOrder t path) := by
  cases t with
  | file =>
    rcases ho : env.openErr path with _ | e1 <;>
      rcases hs : env.statErr path with _ | e2 <;>
        rcases hr : env.removeErr path with _ | e3 <;>
          simp [removeAll, ho, hs, hr, specRemoveOrder]
  | dir entries =>
    rcases ho : env.openErr path with _ | e1
    · rcases hs : env.statErr path with _ | e2
      · rcases hre : env.reopenErr path with _ | e3
        · rcases hn : env.namesErr path with _ | e4
          · have ih := removeChildren_trace env entries path
            rcases hc : removeChildren env entries path with ⟨r, tr⟩
            rw [hc] at ih
            obtain ⟨⟨u, hu⟩, hcmp⟩ := ih
            rcases r with _ | e5
            · have htr : tr = specRemoveOrderEntries entries path :=
                hcmp rfl
              subst htr
              rcases hr : env.removeErr path with _ | e6
              · rcases hcl : env.closeErr path with _ | e7
                · constructor
                  · exact ⟨[], by
                      simp [removeAll, ho, hs, hre, hn, hc, hr, hcl,
                        specRemoveOrder]⟩
                  · intro h9
                    simp [removeAll, ho, hs, hre, hn, hc, hr, hcl,
                      specRemoveOrder]
                · constructor
                  · exact ⟨[], by
                      simp [removeAll, ho, hs, hre, hn, hc, hr, hcl,
                        specRemoveOrder]⟩
                  · intro h9
                    simp [removeAll, ho, hs, hre, hn, hc, hr, hcl] at h9
              · constructor
                · exact ⟨[path], by
                    simp [removeAll, ho, hs, hre, hn, hc, hr,
                      specRemoveOrder]⟩
                · intro h9
                  simp [removeAll, ho, hs, hre, hn, hc, hr] at h9
            · have hu2 : tr ++ u = specRemoveOrderEntries entries path := hu
              constructor
              · refine ⟨u ++ [path], ?_⟩
                simp [removeAll, ho, hs, hre, hn, hc, specRemoveOrder,
                  ← hu2]
              · intro h9
                simp [removeAll, ho, hs, hre, hn, hc] at h9
          · simp [removeAll, ho, hs, hre, hn, specRemoveOrder]
        · simp [removeAll, ho, hs, hre, specRemoveOrder]
      · simp [removeAll, ho, hs, specRemoveOrder]
    · simp [removeAll, ho, specRemoveOrder]
/-- Under any error environment, the paths the child loop removes form an
initial segment of the spec's order over the entries, the whole order when
no error is reported. -/
theorem removeChildren_trace (env : RmEnv) (es : Entries) (path : String) :
    (∃ u, (removeChildren env es path).2 ++ u =
      specRemoveOrderEntries es path) ∧
    ((removeChildren env es path).1 = none →
      (removeChildren env es path).2 = specRemoveOrderEntries es path) := by
  cases es with
  | nil => simp [removeChildren, specRemoveOrderEntries]
  | cons name child rest =>
    by_cases h : name = "." ∨ name = ".."
    · have ih2 := removeChildren_trace env rest path
      simpa [removeChildren, specRemoveOrderEntries, h] using ih2
    · have ih1 := removeAll_trace env child (path ++ pathSep ++ name)
      have ih2 := removeChildren_trace env rest path
      rcases h1 : removeAll env child (path ++ pathSep ++ name) with ⟨r1, tr1⟩
      rw [h1] at ih1
      obtain ⟨⟨u1, hu1⟩, hcmp1⟩ := ih1
      rcases r1 with _ | e1
      · have htr1 : tr1 = specRemoveOrder child (path ++ pathSep ++ name) :=
          hcmp1 rfl
        subst htr1
        rcases h2 : removeChildren env rest path with ⟨r2, tr2⟩
        rw [h2] at ih2
        obtain ⟨⟨u2, hu2⟩, hcmp2⟩ := ih2
        have hu2b : tr2 ++ u2 = specRemoveOrderEntries rest path := hu2
        constructor
        · refine ⟨u2, ?_⟩
          simp [removeChildren, specRemoveOrderEntries, h, h1, h2]
          simpa using hu2b
        · intro hnone
          simp [removeChildren, h, h1, h2] at hnone
          have htr2 : tr2 = specRemoveOrderEntries rest path := hcmp2 hnone
          subst htr2
          simp [removeChildren, specRemoveOrderEntries, h, h1, h2]
      · have hu1b : tr1 ++ u1 =
          specRemoveOrder child (path ++ pathSep ++ name) := hu1
        constructor
        · refine ⟨u1 ++ specRemoveOrderEntries rest path, ?_⟩
          simp [removeChildren, specRemoveOrderEntries, h, h1, ← hu1b]
        · intro hnone
          simp [removeChildren, h, h1] at hnone
end

/-- C7: the recursive-remove helper removes depth-first: in the
all-success environment, the removal trace is exactly the spec order —
for each listed child name other than "." and "..", in listed order, the
child subtree at `path/name` first, the directory itself last — and under
any error environment the removals performed always form an initial
segment of that order, so the helper aborts at the first failure and never
removes a directory before its children. -/
theorem C7_remove_depth_first :
    (∀ (t : FsTree) (path : String),
       removeAll happyEnv t path = (none, specRemoveOrder t path)) ∧
    (∀ (env : RmEnv) (t : FsTree) (path : String),
       isInit (removeAll env t path).2 (specRemoveOrder t path)) := by
  constructor
  · exact removeAll_happy
  · intro env t path
    exact (removeAll_trace env t path).1

/-- C8 counterexample: on a non-directory path whose stat-probing handle
closes with error 7 while every other call succeeds, `removeAll` returns
nil, not the close error — even though no earlier error preempted it. -/
theorem C8_counterexample :
    (removeAll envCloseFails FsTree.file "/f").1 = none ∧
      envCloseFails.closeErr "/f" = some 7 ∧
      envCloseFails.openErr "/f" = none ∧
      envCloseFails.statErr "/f" = none ∧
      envCloseFails.removeErr "/f" = none := by
  refine ⟨?_, rfl, rfl, rfl, rfl⟩
  simp [removeAll, envCloseFails, happyEnv]

/-- C8 (amended): for a non-directory, `removeAll` returns the `Remove`
result and discards the close error of the stat-probing open; for a
directory, the close error is returned when open, stat, re-open, listing,
child removal and directory removal all succeed, and any of those errors
takes precedence over it. -/
theorem C8_close_error_amended :
    (∀ (env : RmEnv) (path : String),
       env.openErr path = none → env.statErr path = none →
       (removeAll env FsTree.file path).1 = env.removeErr path) ∧
    (∀ (env : RmEnv) (entries : Entries) (path : String),
       env.openErr path = none → env.statErr path = none →
       env.reopenErr path = none → env.namesErr path = none →
       (removeChildren env entries path).1 = none →
       env.removeErr path = none →
       (removeAll env (FsTree.dir entries) path).1 = env.closeErr path) ∧
    (∀ (env : RmEnv) (t : FsTree) (path : String) (e : Err),
       env.openErr path = some e → (removeAll env t path).1 = some e) ∧
    (∀ (env : RmEnv) (t : FsTree) (path : String) (e : Err),
       env.openErr path = none → env.statErr path = some e →
       (removeAll env t path).1 = some e) ∧
    (∀ (env : RmEnv) (entries : Entries) (path : String) (e : Err),
       env.openErr path = none → env.statErr path = none →
       env.reopenErr path = some e →
       (removeAll env (FsTree.dir entries) path).1 = some e) ∧
    (∀ (env : RmEnv) (entries : Entries) (path : String) (e : Err),
       env.openErr path = none → env.statErr path = none →
       env.reopenErr path = none → env.namesErr path = some e →
       (removeAll env (FsTree.dir entries) path).1 = some e) ∧
    (∀ (env : RmEnv) (entries : Entries) (path : String) (e : Err),
       env.openErr path = none → env.statErr path = none →
       env.reopenErr path = none → env.namesErr path = none →
       (removeChildren env entries path).1 = some e →
       (removeAll env (FsTree.dir entries) path).1 = some e) ∧
    (∀ (env : RmEnv) (entries : Entries) (path : String) (e : Err),
       env.openErr path = none → env.statErr path = none →
       env.reopenErr path = none → env.namesErr path = none →
       (removeChildren env entries path).1 = none →
       env.removeErr path = some e →
       (removeAll env (FsTree.dir entries) path).1 = some e) := by
  refine ⟨?_, ?_, ?_, ?_, ?_, ?_, ?_, ?_⟩
  · intro env path ho hs
    rcases hr : env.removeErr path with _ | e <;>
      simp [removeAll, ho, hs, hr]
  · intro env entries path ho hs hre hn hc hr
    rcases h2 : removeChildren env entries path with ⟨r, tr⟩
    rw [h2] at hc
    simp only at hc
    subst hc
    simp [removeAll, ho, hs, hre, hn, h2, hr]
  · intro env t path e ho
    cases t <;> simp [removeAll, ho]
  · intro env t path e ho hs
    cases t <;> simp [removeAll, ho, hs]
  · intro env entries path e ho hs hre
    simp [removeAll, ho, hs, hre]
  · intro env entries path e ho hs hre hn
    simp [removeAll, ho, hs, hre, hn]
  · intro env entries path e ho hs hre hn hc
    rcases h2 : removeChildren env entries path with ⟨r, tr⟩
    rw [h2] at hc
    simp only at hc
    subst hc
    simp [removeAll, ho, hs, hre, hn, h2]
  · intro env entries path e ho hs hre hn hc hr
    rcases h2 : removeChildren env entries path with ⟨r, tr⟩
    rw [h2] at hc
    simp only at hc
    subst hc
    simp [removeAll, ho, hs, hre, hn, h2, hr]

/-- Witness for the amended C8 at a concrete input: an empty directory
whose stat-probing close fails with error 7 makes `removeAll` return
error 7. -/
theorem C8_close_error_amended_witness :
    (removeAll envCloseFails (FsTree.dir Entries.nil) "/d").1 = some 7 := by
  have h := C8_close_error_amended.2.1 envCloseFails Entries.nil "/d"
    rfl rfl rfl rfl (by simp [removeChildren]) rfl
  simpa [envCloseFails, happyEnv] using h

end Corfs
